import Mathlib

/-!
Verification of the ASRTool job-orchestration and caching core against its
specification.  The Python sources (`bk_asr/BaseASR.py`,
`bk_asr/StreamBaseASR.py`, `asr_gui.py`) are shallowly embedded: byte strings
become `List Nat` (entries below 256), dicts become association lists, the
stateful stream assembler and the GUI job dispatcher become explicit state
machines driven by event traces.
-/

namespace ASRTool

/-- One bit round of the reflected CRC-32 used by `zlib.crc32`:
shift right, conditionally xor the reflected polynomial `0xEDB88320`. -/
def crcStep (c : Nat) : Nat :=
  if c % 2 = 1 then (c / 2) ^^^ 0xEDB88320 else c / 2

/-- Fold one byte into the running CRC: xor the byte into the low bits,
then eight bit rounds (the bitwise form of `zlib.crc32`). -/
def crcByte (crc byte : Nat) : Nat :=
  crcStep (crcStep (crcStep (crcStep (crcStep (crcStep (crcStep (crcStep (crc ^^^ byte))))))))

/-- `zlib.crc32(data) & 0xFFFFFFFF` as computed in `BaseASR._set_data`:
initial value `0xFFFFFFFF`, final complement, masked to 32 bits. -/
def crc32 (data : List Nat) : Nat :=
  ((data.foldl crcByte 0xFFFFFFFF) ^^^ 0xFFFFFFFF) &&& 0xFFFFFFFF

/-- Lowercase hexadecimal digit of `n % 16`, as Python `%x` formatting. -/
def hexDigit (n : Nat) : Char := Nat.digitChar (n % 16)

/-- Python `format(v, '08x')` for `v < 2 ^ 32`: exactly eight zero-padded
lowercase hex digits, most significant nibble first. -/
def hex8 (v : Nat) : String :=
  String.mk [hexDigit (v / 16 ^ 7), hexDigit (v / 16 ^ 6), hexDigit (v / 16 ^ 5),
    hexDigit (v / 16 ^ 4), hexDigit (v / 16 ^ 3), hexDigit (v / 16 ^ 2),
    hexDigit (v / 16), hexDigit v]

/-- Python dict lookup (`k in d`, `d[k]`) on an association list. -/
def dictGet (d : List (String × α)) (k : String) : Option α :=
  (d.find? (fun e => e.1 == k)).map (·.2)

/-- Python dict assignment `d[k] = v`: overwrite the entry in place if the
key is present (keys are unique in a Python dict, so replacing the first
match is replacing the only one), or append a fresh key at the end
(Python dicts preserve insertion order). -/
def dictSet : List (String × α) → String → α → List (String × α)
  | [], k, v => [(k, v)]
  | e :: d, k, v => if e.1 == k then (k, v) :: d else e :: dictSet d k v

namespace BaseASR

def SUPPORTED_SOUND_FORMAT : List String := ["flac", "m4a", "mp3", "wav"]

/-- Python `str.split(".")`: split at every dot; splitting the empty
string yields `[""]`, so the result is never empty. -/
def splitDotAux : List Char → List Char → List (List Char)
  | [], acc => [acc.reverse]
  | c :: rest, acc =>
    if c = '.' then acc.reverse :: splitDotAux rest [] else splitDotAux rest (c :: acc)

/-- `self.audio_path.split(".")[-1].lower()` from `BaseASR._set_data`:
the extension is everything after the last dot (the whole name when there
is no dot), lowercased (`str.lower`, ASCII case as `Char.toLower`). -/
def extOf (path : String) : String :=
  String.mk (((splitDotAux path.data []).getLastD []).map Char.toLower)

/-- The constructor argument `audio_path`: a file path (`str`) or raw
audio bytes (`bytes`). -/
inductive AudioInput
  | path (p : String)
  | bytes (b : List Nat)

/-- `BaseASR._set_data`: raw bytes are accepted as-is with no checks; for a
path, first assert the extension is supported, then assert the file exists,
then read its contents.  `fs` is the file system (path to byte contents);
errors carry the assertion messages. -/
def set_data (fs : String → Option (List Nat)) : AudioInput → Except String (List Nat)
  | .bytes b => .ok b
  | .path p =>
    if extOf p ∈ SUPPORTED_SOUND_FORMAT then
      match fs p with
      | some b => .ok b
      | none => .error ("File not found: " ++ p)
    else .error ("Unsupported sound format: " ++ extOf p)

/-- `self.crc32_hex = format(zlib.crc32(file_binary) & 0xFFFFFFFF, '08x')`. -/
def crc32_hex (fileBinary : List Nat) : String := hex8 (crc32 fileBinary)

/-- `BaseASR._get_key`: the class name of the backend subclass joined with
the CRC-32 hex by a dash. -/
def get_key (className : String) (fileBinary : List Nat) : String :=
  className ++ "-" ++ crc32_hex fileBinary

/-- The fields of a constructed `BaseASR` instance that the claims need. -/
structure Instance where
  file_binary : List Nat
  crc32Hex : String
deriving DecidableEq

/-- `BaseASR.__init__` up to `_set_data`: store the audio data and its
checksum, or propagate the assertion failure.  No backend interaction
occurs here; the backend is only consulted in `run`. -/
def init (fs : String → Option (List Nat)) (input : AudioInput) :
    Except String Instance :=
  (set_data fs input).map (fun b => ⟨b, crc32_hex b⟩)

/-- Result of one `BaseASR.run` call: the returned payload, the instance
cache afterwards, and whether the backend (`_run`) was invoked. -/
structure RunResult (α : Type) where
  payload : α
  cache : List (String × α)
  invoked : Bool

/-- `BaseASR.run`: if the key is in the instance cache and `use_cache` is
set, answer from the cache without invoking the backend; otherwise invoke
the backend (its response is `resp`) and record the response under the key.
(`_save_cache` additionally writes the dict to disk; that part is modelled
separately for the store claims.) -/
def run (use_cache : Bool) (k : String) (cache : List (String × α)) (resp : α) :
    RunResult α :=
  match dictGet cache k, use_cache with
  | some v, true => ⟨v, cache, false⟩
  | _, _ => ⟨resp, dictSet cache k resp, true⟩

/-- `BaseASR._load_cache` on an intact store: the file holds a JSON dict or
is absent; an absent file yields the empty dict.  (Corrupt content is
modelled by `load_cache` below.) -/
def load_store (file : Option (List (String × α))) : List (String × α) :=
  file.getD []

/-- `BaseASR._save_cache`: serialize the instance's whole in-memory dict to
the file (full overwrite, no re-read of the persisted store), then remove
the file if its size on disk exceeds `10 * 1024 * 1024` bytes.
`serialSize` abstracts `os.path.getsize` of the JSON text just written. -/
def save_cache (serialSize : List (String × α) → Nat) (cache : List (String × α)) :
    Option (List (String × α)) :=
  if 10 * 1024 * 1024 < serialSize cache then none else some cache

/-- One store operation as executed by `BaseASR.run`'s miss branch:
`self.cache[k] = resp` followed by `self._save_cache()`.  Returns the
instance dict and the persisted file afterwards.  Note the persisted file
before the call is not consulted: the write is a snapshot of this
instance's dict alone. -/
def store (serialSize : List (String × α) → Nat) (cache : List (String × α))
    (k : String) (v : α) : List (String × α) × Option (List (String × α)) :=
  (dictSet cache k v, save_cache serialSize (dictSet cache k v))

/-- Outcome of `open(CACHE_FILE, encoding='utf-8')` + `json.load` on the
store file, classifying its content: a JSON dict; valid JSON that is not a
dict (`isinstance` check fails); valid UTF-8 that is not JSON
(`json.JSONDecodeError`); bytes that are not valid UTF-8
(`UnicodeDecodeError`, e.g. the single byte `0xFF`); or an OS-level read
failure (`IOError`). -/
inductive StoreContent (α : Type)
  | dict (d : List (String × α))
  | nonDict
  | badJson
  | badUtf8
  | readFailure

/-- The Python exception escaping `BaseASR._load_cache`, if any. -/
inductive LoadError
  | unicodeDecodeError
deriving DecidableEq

/-- `BaseASR._load_cache` with `use_cache` enabled: no file → `{}`; a JSON
dict → that dict; valid JSON that is not a dict → falls through to the
final `return {}`; `json.JSONDecodeError` and `IOError` are caught →
`return {}`; a `UnicodeDecodeError` from decoding the file is not in the
`except` tuple and propagates to the caller. -/
def load_cache : Option (StoreContent α) → Except LoadError (List (String × α))
  | none => .ok []
  | some (.dict d) => .ok d
  | some .nonDict => .ok []
  | some .badJson => .ok []
  | some .readFailure => .ok []
  | some .badUtf8 => .error .unicodeDecodeError

end BaseASR

namespace StreamBaseASR

/-- `CHUNK_SIZE = 1024 * 16`: the flush threshold in bytes. -/
def CHUNK_SIZE : Nat := 1024 * 16

/-- `MAX_QUEUE_SIZE = 100`: capacity of the bounded input queue. -/
def MAX_QUEUE_SIZE : Nat := 100

/-- What a `feed_audio` call does for the caller: return a boolean, or
raise `AttributeError`. -/
inductive FeedOutcome
  | ret (b : Bool)
  | attributeError
deriving DecidableEq

/-- `StreamBaseASR.feed_audio`: `put(chunk, block=False)` enqueues and
returns `True` while the queue is below capacity.  On a full queue `put`
raises `queue.Full`, and evaluating the handler clause `except Queue.Full`
itself raises `AttributeError` (the class `queue.Queue` has no attribute
`Full`; the exception is a module-level name), which propagates to the
caller while the chunk is dropped.  Returns the outcome and the queue
afterwards. -/
def feed_audio (q : List (List Nat)) (chunk : List Nat) :
    FeedOutcome × List (List Nat) :=
  if q.length < MAX_QUEUE_SIZE then (.ret true, q ++ [chunk])
  else (.attributeError, q)

/-- Modelled from the spec: `_process_buffer` (its concrete subclass
implementation is not under `src/`) hands the buffered bytes to the backend
for partial recognition and clears the buffer; the state machine below
records each such flush in `flushes`. -/
structure State where
  audio_queue : List (List Nat)
  buffer : List Nat
  flushes : List (List Nat)
  is_running : Bool
  liveThreads : Nat
deriving DecidableEq

/-- Initial `StreamBaseASR.__init__` state: empty queue, empty buffer, not
running, no consumer thread. -/
def init : State := ⟨[], [], [], false, 0⟩

/-- The atomic interleaving points of the assembler, one trace = one
schedule of the real program:
`start` and `stop` are the public calls; `feed c` is a `feed_audio c` call
from the producer; `consume` is one iteration of the consumer thread's
`_process_audio` loop (one `get(timeout=0.1)` round). -/
inductive Ev
  | start
  | stop
  | feed (c : List Nat)
  | consume

/-- One event step.
`start`: return immediately if already running, else set the flag and
spawn one consumer thread.
`stop`: clear the flag, join (the loop observes the flag at its `while`
check and exits, or the thread is already dead), then flush the residual
buffer if `tell() > 0`.
`feed c`: as `feed_audio` (a full queue drops the chunk).
`consume`: with a live running thread, pull one chunk if available, append
it to the buffer and flush at `tell() >= CHUNK_SIZE`; on an empty queue
`get` raises `queue.Empty` after the timeout and the handler clause
`except Queue.Empty` raises `AttributeError` (same class-attribute slip as
in `feed_audio`), killing the consumer thread; with the flag cleared the
loop exits. -/
def step (s : State) : Ev → State
  | .start =>
    if s.is_running then s
    else { s with is_running := true, liveThreads := s.liveThreads + 1 }
  | .stop =>
    let s' : State := { s with is_running := false, liveThreads := 0 }
    if s'.buffer.length > 0 then
      { s' with flushes := s'.flushes ++ [s'.buffer], buffer := [] }
    else s'
  | .feed c => { s with audio_queue := (feed_audio s.audio_queue c).2 }
  | .consume =>
    if s.liveThreads = 0 then s
    else if s.is_running = false then { s with liveThreads := 0 }
    else
      match s.audio_queue with
      | [] => { s with liveThreads := 0 }
      | c :: rest =>
        let b := s.buffer ++ c
        if CHUNK_SIZE ≤ b.length then
          { s with audio_queue := rest, buffer := [], flushes := s.flushes ++ [b] }
        else { s with audio_queue := rest, buffer := b }

/-- Run a trace of events from the freshly constructed assembler. -/
def run (es : List Ev) : State := es.foldl step init

/-- The pure effect of the consumer loop devouring a list of queued chunks
in order: buffer and flush record afterwards. -/
def drainChunks : List (List Nat) → List Nat → List (List Nat) →
    List Nat × List (List Nat)
  | [], b, fl => (b, fl)
  | c :: rest, b, fl =>
    let b' := b ++ c
    if CHUNK_SIZE ≤ b'.length then drainChunks rest [] (fl ++ [b'])
    else drainChunks rest b' fl

end StreamBaseASR

namespace ASRWidget

/-- The status column of the file table: "未处理" (not yet processed),
"处理中" (running), "已处理" (done), "错误" (failed). -/
inductive JStat
  | notProcessed
  | processing
  | done
  | errored
deriving DecidableEq

/-- `max_threads = 3`, set in `ASRWidget.__init__` together with
`thread_pool.setMaxThreadCount(3)`. -/
def max_threads : Nat := 3

/-- The dispatcher state: `processing_queue` (FIFO list of waiting paths),
`running` (paths whose worker occupies a pool thread — equivalently the
keys of the `workers` dict, which is populated in `process_file` and
popped on completion), and the table's status column (every submitted path
is assumed to have a table row, as `add_file_to_table` guarantees). -/
structure DState where
  processing_queue : List String
  running : List String
  status : String → JStat

/-- Fresh widget: empty queue, no workers, every row "未处理". -/
def dinit : DState := ⟨[], [], fun _ => .notProcessed⟩

/-- Set one path's status cell. -/
def setStat (st : String → JStat) (p : String) (v : JStat) : String → JStat :=
  fun q => if q = p then v else st q

/-- `ASRWidget.process_next_in_queue`, as a recursion on the queue:
`while activeThreadCount < max_threads and processing_queue:` pop the
head; a path that already has a worker is dropped; otherwise
`process_file` starts a worker (the pool runs it at once, since the loop
only starts below the cap) and marks the row "处理中". -/
def drainAux : List String → List String → (String → JStat) → DState
  | [], r, st => ⟨[], r, st⟩
  | p :: rest, r, st =>
    if max_threads ≤ r.length then ⟨p :: rest, r, st⟩
    else if p ∈ r then drainAux rest r st
    else drainAux rest (r ++ [p]) (setStat st p .processing)

/-- `process_next_in_queue` on a dispatcher state. -/
def drain (s : DState) : DState :=
  drainAux s.processing_queue s.running s.status

/-- `ASRWidget.add_to_queue`: append the path to `processing_queue`, then
`process_next_in_queue`. -/
def submit (p : String) (s : DState) : DState :=
  drain { s with processing_queue := s.processing_queue ++ [p] }

/-- Completion of a running worker for path `p` (`update_table` on the
`finished` signal when `ok`, `handle_error` on the `errno` signal
otherwise): the pool thread is released, the row becomes "已处理" or
"错误", the worker is popped from `workers`, and `process_next_in_queue`
runs again.  Only a started worker can emit the signal. -/
def complete (p : String) (ok : Bool) (s : DState) : DState :=
  if p ∈ s.running then
    drain { processing_queue := s.processing_queue,
            running := s.running.erase p,
            status := setStat s.status p (if ok then .done else .errored) }
  else s

/-- `ASRWidget.reprocess_selected_file`: if the row's status is "处理中"
show the busy warning and return (first component `true` = busy signal);
otherwise `add_to_queue`. -/
def reprocess (p : String) (s : DState) : Bool × DState :=
  if s.status p = .processing then (true, s)
  else (false, submit p s)

/-- The externally triggerable dispatcher operations. -/
inductive Op
  | submit (p : String)
  | complete (p : String) (ok : Bool)
  | reprocess (p : String)

/-- Apply one operation. -/
def applyOp (s : DState) : Op → DState
  | .submit p => submit p s
  | .complete p ok => complete p ok s
  | .reprocess p => (reprocess p s).2

/-- The state reached from a fresh widget by a sequence of operations. -/
def applyOps (ops : List Op) : DState := ops.foldl applyOp dinit

/-- Dispatcher invariant: never more than `max_threads` running workers;
a path has a worker exactly when its row reads "处理中"; no path has two
workers at once. -/
def DInv (s : DState) : Prop :=
  s.running.length ≤ max_threads
  ∧ (∀ p, p ∈ s.running ↔ s.status p = .processing)
  ∧ s.running.Nodup

end ASRWidget

/-! ## Helper lemmas -/

theorem dictGet_set_self (d : List (String × α)) (k : String) (v : α) :
    dictGet (dictSet d k v) k = some v := by
  induction d with
  | nil => simp [dictGet, dictSet, List.find?]
  | cons e d ih =>
    by_cases he : e.1 == k
    · simp [dictGet, dictSet, List.find?, he]
    · simp only [dictSet, he, if_false, Bool.false_eq_true]
      simpa [dictGet, List.find?, he] using ih

theorem dictGet_set_ne (d : List (String × α)) (k k' : String) (v : α)
    (h : k' ≠ k) : dictGet (dictSet d k v) k' = dictGet d k' := by
  have hk : (k == k') = false := by simp [beq_iff_eq]; exact fun hh => h hh.symm
  induction d with
  | nil => simp [dictGet, dictSet, List.find?, hk]
  | cons e d ih =>
    by_cases he : e.1 == k
    · have he' : e.1 = k := by simpa [beq_iff_eq] using he
      simp [dictGet, dictSet, List.find?, he, hk, he']
    · simp only [dictSet, he, if_false, Bool.false_eq_true]
      by_cases he2 : e.1 == k'
      · simp [dictGet, List.find?, he2]
      · simpa [dictGet, List.find?, he2] using ih

/-! ## Claims -/

/-- C1: with caching enabled, a second `run` over byte-identical audio for
the same backend does not invoke the backend and returns the first call's
payload; the cache key is the backend class name joined with the 8-hex-digit
CRC-32 of the exact audio bytes, so the key obtained from any file path is
the key of the bytes it contains, independent of the path. -/
theorem c1_cache_key_and_hit {α : Type} (n : String) (b : List Nat)
    (cache : List (String × α)) (r1 r2 : α) :
    ((BaseASR.run true (BaseASR.get_key n b)
        (BaseASR.run true (BaseASR.get_key n b) cache r1).cache r2).invoked = false
      ∧ (BaseASR.run true (BaseASR.get_key n b)
          (BaseASR.run true (BaseASR.get_key n b) cache r1).cache r2).payload
        = (BaseASR.run true (BaseASR.get_key n b) cache r1).payload)
    ∧ BaseASR.get_key n b = n ++ "-" ++ hex8 (crc32 b)
    ∧ (BaseASR.crc32_hex b).length = 8
    ∧ (∀ fs p, BaseASR.set_data fs (.path p) = .ok b →
        (BaseASR.init fs (.path p)).map (fun i => BaseASR.get_key n i.file_binary)
          = .ok (BaseASR.get_key n b)
        ∧ (BaseASR.init fs (.bytes b)).map (fun i => BaseASR.get_key n i.file_binary)
          = .ok (BaseASR.get_key n b)) := by
  refine ⟨?_, rfl, rfl, ?_⟩
  · cases h : dictGet cache (BaseASR.get_key n b) with
    | some v => simp [BaseASR.run, h]
    | none => simp [BaseASR.run, h, dictGet_set_self]
  · intro fs p h
    constructor
    · simp [BaseASR.init, h, Except.map]
    · rfl

/-- Witness for C1 at concrete inputs: backend `"BcutASR"`, audio bytes
`[0, 1, 2]`, a one-path file system holding those bytes, empty cache,
distinct backend responses `5` and `7`. -/
theorem c1_witness :
    BaseASR.set_data (fun p => if p = "a.wav" then some [0, 1, 2] else none)
        (.path "a.wav") = .ok [0, 1, 2]
    ∧ ((BaseASR.run true (BaseASR.get_key "BcutASR" [0, 1, 2])
        (BaseASR.run true (BaseASR.get_key "BcutASR" [0, 1, 2]) ([] : List (String × Nat)) 5).cache
        7).invoked = false
      ∧ (BaseASR.run true (BaseASR.get_key "BcutASR" [0, 1, 2])
          (BaseASR.run true (BaseASR.get_key "BcutASR" [0, 1, 2]) ([] : List (String × Nat)) 5).cache
          7).payload
        = (BaseASR.run true (BaseASR.get_key "BcutASR" [0, 1, 2]) ([] : List (String × Nat)) 5).payload) := by
  constructor
  · rfl
  · exact (c1_cache_key_and_hit "BcutASR" [0, 1, 2] [] 5 7).1

/-- C2 counterexample: `_save_cache` never re-reads the persisted store, it
overwrites the file with the calling instance's in-memory dict.  Two
instances constructed from the same (empty) store: the first stores
`("a", 1)`, so `("a", 1)` is in the persisted store immediately before the
second call; the second instance (whose dict only holds `("b", 2)`) stores,
and `"a"` is no longer readable — the claimed read-merge-write cycle does
not happen and the earlier entry is lost. -/
theorem c2_counterexample :
    dictGet (BaseASR.load_store
        (BaseASR.store (fun _ => 0)
          (BaseASR.load_store (none : Option (List (String × Nat)))) "a" 1).2) "a"
      = some 1
    ∧ dictGet (BaseASR.load_store
        (BaseASR.store (fun _ => 0)
          (BaseASR.load_store (none : Option (List (String × Nat)))) "b" 2).2) "b"
      = some 2
    ∧ dictGet (BaseASR.load_store
        (BaseASR.store (fun _ => 0)
          (BaseASR.load_store (none : Option (List (String × Nat)))) "b" 2).2) "a"
      = none := by
  decide

/-- C2 amended: a store call writes the calling instance's entire
in-memory dict (entries loaded at construction merged with entries stored
through it) to the persisted file, replacing its previous contents.  Hence
after an instance stores `k1` and a second instance, constructed from the
persisted store after that call, stores `k2 ≠ k1`, both keys are readable
(provided neither write exceeds the 10 MiB sweep).  The same holds for two
stores through one instance, whose dict is the same `dictSet` chain. -/
theorem c2_amended {α : Type} (sz : List (String × α) → Nat)
    (c : List (String × α)) (k1 k2 : String) (v1 v2 : α) (hk : k1 ≠ k2)
    (hA : sz (dictSet c k1 v1) ≤ 10 * 1024 * 1024)
    (hB : sz (dictSet (dictSet c k1 v1) k2 v2) ≤ 10 * 1024 * 1024) :
    dictGet (BaseASR.load_store
        (BaseASR.store sz (BaseASR.load_store (BaseASR.store sz c k1 v1).2) k2 v2).2) k1
      = some v1
    ∧ dictGet (BaseASR.load_store
        (BaseASR.store sz (BaseASR.load_store (BaseASR.store sz c k1 v1).2) k2 v2).2) k2
      = some v2 := by
  have hA' : ¬ 10 * 1024 * 1024 < sz (dictSet c k1 v1) := not_lt.mpr hA
  have h1 : (BaseASR.store sz c k1 v1).2 = some (dictSet c k1 v1) := by
    simp [BaseASR.store, BaseASR.save_cache, hA']
  rw [h1]
  have hB' : ¬ 10 * 1024 * 1024 < sz (dictSet (dictSet c k1 v1) k2 v2) := not_lt.mpr hB
  have h2 : (BaseASR.store sz (dictSet c k1 v1) k2 v2).2
      = some (dictSet (dictSet c k1 v1) k2 v2) := by
    simp [BaseASR.store, BaseASR.save_cache, hB']
  simp only [BaseASR.load_store, Option.getD_some, h2]
  exact ⟨by rw [dictGet_set_ne _ _ _ _ hk, dictGet_set_self], dictGet_set_self _ _ _⟩

/-- Witness for C2 amended: empty initial store, keys `"a"` and `"b"`,
zero size function. -/
theorem c2_amended_witness :
    ("a" : String) ≠ "b"
    ∧ dictGet (BaseASR.load_store
        (BaseASR.store (fun _ => (0 : Nat))
          (BaseASR.load_store (BaseASR.store (fun _ => 0) ([] : List (String × Nat)) "a" 1).2)
          "b" 2).2) "a" = some 1
    ∧ dictGet (BaseASR.load_store
        (BaseASR.store (fun _ => (0 : Nat))
          (BaseASR.load_store (BaseASR.store (fun _ => 0) ([] : List (String × Nat)) "a" 1).2)
          "b" 2).2) "b" = some 2 := by
  refine ⟨by decide, ?_⟩
  exact c2_amended (fun _ => 0) [] "a" "b" 1 2 (by decide)
    (by decide) (by decide)

/-- C3: on a full input queue, `feed_audio` does not return `False`: the
`queue.Full` raised by `put` is replaced by an `AttributeError` raised
while evaluating the handler clause `except Queue.Full` (the class
`queue.Queue` has no such attribute), and that exception reaches the
caller (the chunk is dropped).  Below capacity the call enqueues the chunk
and returns `True` as the claim says. -/
theorem c3_code_bug (q : List (List Nat)) (chunk : List Nat) :
    (q.length = StreamBaseASR.MAX_QUEUE_SIZE →
      StreamBaseASR.feed_audio q chunk = (.attributeError, q))
    ∧ (q.length < StreamBaseASR.MAX_QUEUE_SIZE →
      StreamBaseASR.feed_audio q chunk = (.ret true, q ++ [chunk])) := by
  constructor <;> intro h <;> simp [StreamBaseASR.feed_audio, h]

/-- Witness for C3: a queue of 100 chunks (the capacity) raises
`AttributeError` to the caller; an empty queue accepts the chunk. -/
theorem c3_code_bug_witness :
    StreamBaseASR.feed_audio (List.replicate 100 []) [1]
      = (.attributeError, List.replicate 100 [])
    ∧ StreamBaseASR.feed_audio [] [1] = (.ret true, [[1]]) := by
  constructor
  · exact (c3_code_bug (List.replicate 100 []) [1]).1 (by simp [StreamBaseASR.MAX_QUEUE_SIZE])
  · exact (c3_code_bug [] [1]).2 (by simp [StreamBaseASR.MAX_QUEUE_SIZE])

/-- C6: an absent store, a store caught as `json.JSONDecodeError` (valid
UTF-8 that is not JSON), an `IOError` read failure, and valid JSON that is
not a dict all behave as an empty cache — but a store file whose bytes are
not valid UTF-8 (e.g. the single byte `0xFF`) raises `UnicodeDecodeError`,
which is in neither class of the `except (json.JSONDecodeError, IOError)`
clause and escapes `_load_cache` to the constructor's caller, contradicting
both the claim and the method's own docstring. -/
theorem c6_code_bug :
    (BaseASR.load_cache (none : Option (BaseASR.StoreContent Nat)) = .ok []
      ∧ BaseASR.load_cache (some (BaseASR.StoreContent.nonDict (α := Nat))) = .ok []
      ∧ BaseASR.load_cache (some (BaseASR.StoreContent.badJson (α := Nat))) = .ok []
      ∧ BaseASR.load_cache (some (BaseASR.StoreContent.readFailure (α := Nat))) = .ok [])
    ∧ BaseASR.load_cache (some (BaseASR.StoreContent.badUtf8 (α := Nat)))
      = .error BaseASR.LoadError.unicodeDecodeError :=
  ⟨⟨rfl, rfl, rfl, rfl⟩, rfl⟩

open StreamBaseASR in
theorem stream_feeds (cs : List (List Nat)) (s : State)
    (h : s.audio_queue.length + cs.length ≤ MAX_QUEUE_SIZE) :
    List.foldl step s (cs.map Ev.feed) = { s with audio_queue := s.audio_queue ++ cs } := by
  induction cs generalizing s with
  | nil => simp
  | cons c rest ih =>
    simp only [List.length_cons] at h
    have hlt : s.audio_queue.length < MAX_QUEUE_SIZE := by omega
    have hstep : step s (.feed c) = { s with audio_queue := s.audio_queue ++ [c] } := by
      simp [step, feed_audio, hlt]
    have hrec := ih { s with audio_queue := s.audio_queue ++ [c] }
      (by simp only [List.length_append, List.length_cons, List.length_nil]; omega)
    simp only [List.map_cons, List.foldl_cons, hstep, hrec, List.append_assoc,
      List.singleton_append]

open StreamBaseASR in
theorem stream_consumes (cs : List (List Nat)) (b : List Nat) (fl : List (List Nat)) :
    List.foldl step ⟨cs, b, fl, true, 1⟩ (List.replicate cs.length Ev.consume)
      = ⟨[], (drainChunks cs b fl).1, (drainChunks cs b fl).2, true, 1⟩ := by
  induction cs generalizing b fl with
  | nil => simp [drainChunks]
  | cons c rest ih =>
    simp only [List.length_cons, List.replicate_succ, List.foldl_cons]
    by_cases hb : CHUNK_SIZE ≤ b.length + c.length
    · have hstep : step ⟨c :: rest, b, fl, true, 1⟩ .consume
          = ⟨rest, [], fl ++ [b ++ c], true, 1⟩ := by
        simp [step, List.length_append, hb]
      rw [hstep, ih]
      simp [drainChunks, List.length_append, hb]
    · have hstep : step ⟨c :: rest, b, fl, true, 1⟩ .consume
          = ⟨rest, b ++ c, fl, true, 1⟩ := by
        simp [step, List.length_append, hb]
      rw [hstep, ih]
      simp [drainChunks, List.length_append, hb]

open StreamBaseASR in
theorem drainChunks_all_empty (cs : List (List Nat)) (fl : List (List Nat))
    (h : (cs.map List.length).sum = 0) :
    drainChunks cs [] fl = ([], fl) := by
  induction cs with
  | nil => simp [drainChunks]
  | cons c rest ih =>
    simp only [List.map_cons, List.sum_cons] at h
    have hc : c = [] := List.length_eq_zero.mp (by omega)
    have hrest : (rest.map List.length).sum = 0 := by omega
    subst hc
    have : ¬ CHUNK_SIZE ≤ (([] : List Nat) ++ []).length := by simp [CHUNK_SIZE]
    simp only [drainChunks, this, if_false]
    simpa using ih hrest

open StreamBaseASR in
theorem drainChunks_exact (cs : List (List Nat)) (b : List Nat) (fl : List (List Nat))
    (hb : b.length < CHUNK_SIZE)
    (h : b.length + (cs.map List.length).sum = CHUNK_SIZE) :
    drainChunks cs b fl = ([], fl ++ [b ++ cs.flatten]) := by
  induction cs generalizing b fl with
  | nil => simp at h; omega
  | cons c rest ih =>
    simp only [List.map_cons, List.sum_cons] at h
    by_cases hcase : CHUNK_SIZE ≤ (b ++ c).length
    · have hrest : (rest.map List.length).sum = 0 := by
        simp only [List.length_append] at hcase; omega
      have hjoin : rest.flatten = [] := by
        rw [← List.length_eq_zero, List.length_flatten]; exact hrest
      simp only [drainChunks, hcase, if_true]
      rw [drainChunks_all_empty rest _ hrest]
      simp [hjoin]
    · simp only [drainChunks, hcase, if_false]
      rw [ih (b ++ c) fl (by simpa using Nat.lt_of_not_le hcase)
        (by simp only [List.length_append] at hcase ⊢; omega)]
      simp

open StreamBaseASR in
theorem drainChunks_under (cs : List (List Nat)) (b : List Nat) (fl : List (List Nat))
    (h : b.length + (cs.map List.length).sum < CHUNK_SIZE) :
    drainChunks cs b fl = (b ++ cs.flatten, fl) := by
  induction cs generalizing b fl with
  | nil => simp [drainChunks]
  | cons c rest ih =>
    simp only [List.map_cons, List.sum_cons] at h
    have hcase : ¬ CHUNK_SIZE ≤ (b ++ c).length := by
      simp only [List.length_append]; omega
    simp only [drainChunks, hcase, if_false]
    rw [ih (b ++ c) fl (by simp only [List.length_append]; omega)]
    simp

/-- C5: the consumer loop appends each received chunk to the buffer and
flushes the full buffer exactly when its size reaches `CHUNK_SIZE = 16384`,
clearing it; for any chunk sequence whose sizes total exactly the
threshold (all of which fit the input queue), running the assembler,
feeding them all and letting the loop consume them all yields exactly one
flush, holding every fed byte in order, with an empty residual buffer. -/
theorem c5_exact_threshold (chunks : List (List Nat))
    (hn : chunks.length ≤ StreamBaseASR.MAX_QUEUE_SIZE)
    (hs : (chunks.map List.length).sum = StreamBaseASR.CHUNK_SIZE) :
    (StreamBaseASR.run ([.start] ++ chunks.map .feed
        ++ List.replicate chunks.length .consume)).flushes = [chunks.flatten]
    ∧ (StreamBaseASR.run ([.start] ++ chunks.map .feed
          ++ List.replicate chunks.length .consume)).buffer = [] := by
  have h0 : StreamBaseASR.step StreamBaseASR.init .start = ⟨[], [], [], true, 1⟩ := rfl
  have h1 : List.foldl StreamBaseASR.step (⟨[], [], [], true, 1⟩ : StreamBaseASR.State)
      (chunks.map .feed) = ⟨chunks, [], [], true, 1⟩ := by
    rw [stream_feeds chunks _ (by simpa using hn)]
    rfl
  have h2 := stream_consumes chunks [] []
  rw [drainChunks_exact chunks [] []
    (by simp [StreamBaseASR.CHUNK_SIZE]) (by simpa using hs)] at h2
  unfold StreamBaseASR.run
  rw [List.foldl_append, List.foldl_append]
  simp only [List.foldl_cons, List.foldl_nil, h0, h1, h2]
  exact ⟨by trivial, by trivial⟩

/-- Witness for C5: a single 16384-byte chunk of zeros, fed and consumed:
one flush of all bytes, empty residual buffer. -/
theorem c5_exact_threshold_witness :
    (([List.replicate 16384 (0 : Nat)].map List.length).sum = StreamBaseASR.CHUNK_SIZE)
    ∧ (StreamBaseASR.run ([.start] ++ [List.replicate 16384 (0 : Nat)].map .feed
        ++ List.replicate [List.replicate 16384 (0 : Nat)].length .consume)).flushes
      = [[List.replicate 16384 (0 : Nat)].flatten]
    ∧ (StreamBaseASR.run ([.start] ++ [List.replicate 16384 (0 : Nat)].map .feed
          ++ List.replicate [List.replicate 16384 (0 : Nat)].length .consume)).buffer
      = [] := by
  have hs : (([List.replicate 16384 (0 : Nat)].map List.length).sum
      = StreamBaseASR.CHUNK_SIZE) := by
    rw [List.map_cons, List.map_nil, List.length_replicate, List.sum_cons, List.sum_nil]
    rfl
  refine ⟨hs, ?_⟩
  exact c5_exact_threshold [List.replicate 16384 (0 : Nat)] (by decide) hs

/-- C4 counterexample: on a running assembler, feed one chunk (`[1]`, far
below the threshold) and immediately call `stop()` in the schedule where
the consumer loop observes the cleared flag before polling the queue: the
loop exits, the final flush sees an empty buffer and flushes nothing, and
the fed chunk stays in the abandoned input queue — a fed byte is lost
(it appears in no flush), refuting "every byte that was fed is included in
exactly one flush and zero fed bytes are lost". -/
theorem c4_counterexample :
    StreamBaseASR.run [.start, .feed [1], .stop]
      = ⟨[[1]], [], [], false, 0⟩ := by
  decide

/-- C4 amended: `stop()` signals the loop to exit, joins it, and performs
exactly one final flush of the residual buffered bytes; every byte the
consumer loop had transferred into the buffer before `stop` is flushed
exactly once.  In the schedules where the loop has consumed every fed
chunk before `stop` (modelled: all feeds, then one loop iteration per
chunk, then `stop`), with a nonzero total below the threshold, the run
ends with exactly one flush holding every fed byte in order and an empty
buffer and queue.  Bytes still sitting in the input queue when the loop
exits are not flushed (see the counterexample). -/
theorem c4_stop_flush (chunks : List (List Nat))
    (hn : chunks.length ≤ StreamBaseASR.MAX_QUEUE_SIZE)
    (hpos : 0 < (chunks.map List.length).sum)
    (hlt : (chunks.map List.length).sum < StreamBaseASR.CHUNK_SIZE) :
    (StreamBaseASR.run ([.start] ++ chunks.map .feed
        ++ List.replicate chunks.length .consume ++ [.stop])).flushes = [chunks.flatten]
    ∧ (StreamBaseASR.run ([.start] ++ chunks.map .feed
          ++ List.replicate chunks.length .consume ++ [.stop])).buffer = []
    ∧ (StreamBaseASR.run ([.start] ++ chunks.map .feed
          ++ List.replicate chunks.length .consume ++ [.stop])).audio_queue = [] := by
  have h0 : StreamBaseASR.step StreamBaseASR.init .start = ⟨[], [], [], true, 1⟩ := rfl
  have h1 : List.foldl StreamBaseASR.step (⟨[], [], [], true, 1⟩ : StreamBaseASR.State)
      (chunks.map .feed) = ⟨chunks, [], [], true, 1⟩ := by
    rw [stream_feeds chunks _ (by simpa using hn)]
    rfl
  have h2 := stream_consumes chunks [] []
  rw [drainChunks_under chunks [] [] (by simpa using hlt)] at h2
  have hjoin : (chunks.flatten).length > 0 := by
    rw [List.length_flatten]; exact hpos
  unfold StreamBaseASR.run
  rw [List.foldl_append, List.foldl_append, List.foldl_append]
  simp only [List.foldl_cons, List.foldl_nil, h0, h1, h2]
  simp [StreamBaseASR.step, hpos]

/-- Witness for C4 amended: one three-byte chunk `[1, 2, 3]`, consumed,
then `stop`: one flush `[1, 2, 3]`, nothing left anywhere. -/
theorem c4_stop_flush_witness :
    (0 < (([[1, 2, 3]] : List (List Nat)).map List.length).sum)
    ∧ (StreamBaseASR.run ([.start] ++ ([[1, 2, 3]] : List (List Nat)).map .feed
        ++ List.replicate ([[1, 2, 3]] : List (List Nat)).length .consume
        ++ [.stop])).flushes = [([[1, 2, 3]] : List (List Nat)).flatten] := by
  refine ⟨by decide, ?_⟩
  exact (c4_stop_flush [[1, 2, 3]] (by decide) (by decide) (by decide)).1

open StreamBaseASR in
theorem stream_step_live (s : State) (e : Ev) (h1 : s.liveThreads ≤ 1)
    (h2 : s.is_running = false → s.liveThreads = 0) :
    (step s e).liveThreads ≤ 1
    ∧ ((step s e).is_running = false → (step s e).liveThreads = 0) := by
  cases e with
  | start =>
    by_cases hr : s.is_running
    · have hs : step s .start = s := by simp [step, hr]
      rw [hs]; exact ⟨h1, h2⟩
    · have h0 : s.liveThreads = 0 := h2 (by simpa using hr)
      have hs : step s .start
          = ⟨s.audio_queue, s.buffer, s.flushes, true, s.liveThreads + 1⟩ := by
        simp [step, hr]
      rw [hs]
      exact ⟨by simp [h0], by simp⟩
  | stop =>
    by_cases hb : 0 < s.buffer.length
    · have hs : step s .stop
          = ⟨s.audio_queue, [], s.flushes ++ [s.buffer], false, 0⟩ := by
        simp [step, hb]
      rw [hs]; exact ⟨Nat.zero_le 1, fun _ => rfl⟩
    · have hs : step s .stop
          = ⟨s.audio_queue, s.buffer, s.flushes, false, 0⟩ := by
        simp [step, hb]
      rw [hs]; exact ⟨Nat.zero_le 1, fun _ => rfl⟩
  | feed c =>
    have hs : step s (.feed c)
        = ⟨(feed_audio s.audio_queue c).2, s.buffer, s.flushes, s.is_running, s.liveThreads⟩ := by
      simp [step]
    rw [hs]; exact ⟨h1, h2⟩
  | consume =>
    by_cases hl : s.liveThreads = 0
    · have hs : step s .consume = s := by simp [step, hl]
      rw [hs]; exact ⟨h1, h2⟩
    · by_cases hr : s.is_running = false
      · have hs : step s .consume
            = ⟨s.audio_queue, s.buffer, s.flushes, s.is_running, 0⟩ := by
          simp [step, hl, hr]
        rw [hs]; exact ⟨Nat.zero_le 1, fun _ => rfl⟩
      · cases hq : s.audio_queue with
        | nil =>
          have hs : step s .consume
              = ⟨s.audio_queue, s.buffer, s.flushes, s.is_running, 0⟩ := by
            simp [step, hl, hr, hq]
          rw [hs]; exact ⟨Nat.zero_le 1, fun _ => rfl⟩
        | cons c rest' =>
          by_cases hc : CHUNK_SIZE ≤ s.buffer.length + c.length
          · have hs : step s .consume
                = ⟨rest', [], s.flushes ++ [s.buffer ++ c], s.is_running, s.liveThreads⟩ := by
              simp [step, hl, hr, hq, List.length_append, hc]
            rw [hs]; exact ⟨h1, fun h => absurd h hr⟩
          · have hs : step s .consume
                = ⟨rest', s.buffer ++ c, s.flushes, s.is_running, s.liveThreads⟩ := by
              simp [step, hl, hr, hq, List.length_append, hc]
            rw [hs]; exact ⟨h1, fun h => absurd h hr⟩

open StreamBaseASR in
theorem stream_live_invariant (es : List Ev) (s : State)
    (h1 : s.liveThreads ≤ 1) (h2 : s.is_running = false → s.liveThreads = 0) :
    (List.foldl step s es).liveThreads ≤ 1
    ∧ ((List.foldl step s es).is_running = false → (List.foldl step s es).liveThreads = 0) := by
  induction es generalizing s with
  | nil => exact ⟨h1, h2⟩
  | cons e rest ih =>
    simp only [List.foldl_cons]
    exact ih (step s e) (stream_step_live s e h1 h2).1 (stream_step_live s e h1 h2).2

/-- C10: `start()` on a running assembler returns at once without spawning
a thread or changing any state, and along every event trace from a fresh
assembler at most one consumer thread is alive. -/
theorem c10_start_idempotent :
    (∀ s : StreamBaseASR.State, s.is_running = true → StreamBaseASR.step s .start = s)
    ∧ (∀ es : List StreamBaseASR.Ev, (StreamBaseASR.run es).liveThreads ≤ 1) := by
  constructor
  · intro s h
    simp [StreamBaseASR.step, h]
  · intro es
    exact (stream_live_invariant es StreamBaseASR.init (by decide) (fun _ => rfl)).1

/-- Witness for C10: a started assembler is running, and a second `start`
leaves the state untouched; a double-`start` trace has one live thread. -/
theorem c10_start_idempotent_witness :
    ((⟨[], [], [], true, 1⟩ : StreamBaseASR.State).is_running = true
      ∧ StreamBaseASR.step ⟨[], [], [], true, 1⟩ .start = ⟨[], [], [], true, 1⟩)
    ∧ (StreamBaseASR.run [.start, .start]).liveThreads ≤ 1 := by
  exact ⟨⟨rfl, c10_start_idempotent.1 ⟨[], [], [], true, 1⟩ rfl⟩,
    c10_start_idempotent.2 [.start, .start]⟩

open ASRWidget in
theorem drainAux_full (q : List String) (r : List String) (st : String → JStat)
    (h : max_threads ≤ r.length) : drainAux q r st = ⟨q, r, st⟩ := by
  cases q with
  | nil => rfl
  | cons p rest => simp [drainAux, h]

open ASRWidget in
theorem drainAux_mem (q : List String) (r : List String) (st : String → JStat)
    (x : String) (hx : x ∈ r) : x ∈ (drainAux q r st).running := by
  induction q generalizing r st with
  | nil => exact hx
  | cons p rest ih =>
    by_cases hcap : max_threads ≤ r.length
    · simpa [drainAux, hcap] using hx
    · by_cases hp : p ∈ r
      · simpa [drainAux, hcap, hp] using ih r st hx
      · simpa [drainAux, hcap, hp] using
          ih (r ++ [p]) (setStat st p .processing) (List.mem_append_left _ hx)

open ASRWidget in
theorem drainAux_inv (q : List String) (r : List String) (st : String → JStat)
    (hlen : r.length ≤ max_threads) (hmem : ∀ p, p ∈ r ↔ st p = .processing)
    (hnd : r.Nodup) : DInv (drainAux q r st) := by
  induction q generalizing r st with
  | nil => exact ⟨hlen, hmem, hnd⟩
  | cons p rest ih =>
    by_cases hcap : max_threads ≤ r.length
    · simp only [drainAux, hcap, if_true]
      exact ⟨hlen, hmem, hnd⟩
    · by_cases hp : p ∈ r
      · simp only [drainAux, hcap, if_false, hp, if_true]
        exact ih r st hlen hmem hnd
      · simp only [drainAux, hcap, hp, if_false]
        apply ih
        · simp only [List.length_append, List.length_cons, List.length_nil]
          omega
        · intro x
          by_cases hx : x = p
          · subst hx
            simp [setStat, List.mem_append]
          · simp [setStat, hx, List.mem_append, hmem x]
        · simp [List.nodup_append, hnd, hp]

open ASRWidget in
theorem applyOp_inv (s : DState) (op : Op) (h : DInv s) : DInv (applyOp s op) := by
  obtain ⟨hlen, hmem, hnd⟩ := h
  cases op with
  | submit p =>
    exact drainAux_inv _ _ _ hlen hmem hnd
  | complete p ok =>
    by_cases hp : p ∈ s.running
    · simp only [applyOp, complete, hp, if_true]
      apply drainAux_inv
      · calc (s.running.erase p).length ≤ s.running.length := List.length_erase_le _ _
          _ ≤ max_threads := hlen
      · intro x
        by_cases hx : x = p
        · subst hx
          have hxe : x ∉ s.running.erase x := fun hc =>
            (List.Nodup.mem_erase_iff hnd).mp hc |>.1 rfl
          simp only [setStat, if_pos rfl]
          constructor
          · intro hc; exact absurd hc hxe
          · intro hc
            cases ok <;> simp_all
        · rw [List.Nodup.mem_erase_iff hnd]
          simp [setStat, hx, hmem x]
      · exact List.Nodup.erase _ hnd
    · simpa [applyOp, complete, hp] using ⟨hlen, hmem, hnd⟩
  | reprocess p =>
    by_cases hs : s.status p = .processing
    · simpa [applyOp, reprocess, hs] using ⟨hlen, hmem, hnd⟩
    · simp only [applyOp, reprocess, hs, if_false]
      exact drainAux_inv _ _ _ hlen hmem hnd

open ASRWidget in
theorem applyOps_inv (ops : List Op) : DInv (applyOps ops) := by
  have key : ∀ (l : List Op) (s : DState), DInv s → DInv (l.foldl applyOp s) := by
    intro l
    induction l with
    | nil => exact fun s h => h
    | cons op rest ih =>
      intro s h
      exact ih (applyOp s op) (applyOp_inv s op h)
  refine key ops dinit ⟨by simp [dinit, max_threads], ?_, by simp [dinit]⟩
  intro p
  simp [dinit]

/-- C7: in every state reachable from a fresh dispatcher, at most 3 workers
run simultaneously; when 3 are running, a further submission changes
nothing but the FIFO queue (it is appended at the tail and waits); and
when 3 are running with `p` at the queue head, `p` is admitted to Running
by the completion of any running job — queued jobs are only started by the
head-first drain. -/
theorem c7_concurrency_cap (ops : List ASRWidget.Op) :
    (ASRWidget.applyOps ops).running.length ≤ ASRWidget.max_threads
    ∧ (∀ p, (ASRWidget.applyOps ops).running.length = ASRWidget.max_threads →
        (ASRWidget.submit p (ASRWidget.applyOps ops)).running
            = (ASRWidget.applyOps ops).running
        ∧ (ASRWidget.submit p (ASRWidget.applyOps ops)).processing_queue
            = (ASRWidget.applyOps ops).processing_queue ++ [p])
    ∧ (∀ p rest r, (ASRWidget.applyOps ops).running.length = ASRWidget.max_threads →
        (ASRWidget.applyOps ops).processing_queue = p :: rest →
        r ∈ (ASRWidget.applyOps ops).running →
        p ∉ (ASRWidget.applyOps ops).running →
        p ∈ (ASRWidget.complete r true (ASRWidget.applyOps ops)).running) := by
  obtain ⟨hlen, hmem, hnd⟩ := applyOps_inv ops
  refine ⟨hlen, ?_, ?_⟩
  · intro p hfull
    have h := drainAux_full ((ASRWidget.applyOps ops).processing_queue ++ [p])
      (ASRWidget.applyOps ops).running (ASRWidget.applyOps ops).status (le_of_eq hfull.symm)
    simp only [ASRWidget.submit, ASRWidget.drain, h]
    exact ⟨by trivial, by trivial⟩
  · intro p rest r hfull hq hr hp
    have herase : ((ASRWidget.applyOps ops).running.erase r).length
        = ASRWidget.max_threads - 1 := by
      rw [List.length_erase_of_mem hr, hfull]
    have hcap : ¬ ASRWidget.max_threads ≤ ((ASRWidget.applyOps ops).running.erase r).length := by
      rw [herase]; simp [ASRWidget.max_threads]
    have hpe : p ∉ (ASRWidget.applyOps ops).running.erase r :=
      fun hc => hp (List.mem_of_mem_erase hc)
    simp only [ASRWidget.complete, hr, if_true, ASRWidget.drain, hq]
    simp only [ASRWidget.drainAux, hcap, hpe, if_false]
    exact drainAux_mem _ _ _ _ (List.mem_append_right _ (List.mem_singleton.mpr rfl))

/-- Witness for C7: submit `"a"`, `"b"`, `"c"`, `"d"`: the first three run,
`"d"` waits at the head of the queue with all three slots busy, and the
completion of `"a"` admits `"d"` to Running. -/
theorem c7_concurrency_cap_witness :
    (ASRWidget.applyOps
        [.submit "a", .submit "b", .submit "c", .submit "d"]).running.length
      ≤ ASRWidget.max_threads
    ∧ "d" ∈ (ASRWidget.complete "a" true (ASRWidget.applyOps
        [.submit "a", .submit "b", .submit "c", .submit "d"])).running := by
  refine ⟨(c7_concurrency_cap _).1, ?_⟩
  exact (c7_concurrency_cap [.submit "a", .submit "b", .submit "c", .submit "d"]).2.2
    "d" [] "a" (by decide) (by decide) (by decide) (by decide)

/-- C8: in every reachable dispatcher state, re-submitting a path whose row
reads "处理中" (a Running job) is rejected with the busy warning and
changes nothing — no duplicate entry anywhere; re-submitting a path whose
job is Done or Failed is accepted (no busy signal), the path has no
running worker, and with a free slot and an empty queue it is started at
once as a fresh Running job. -/
theorem c8_busy_rejection (ops : List ASRWidget.Op) (p : String) :
    ((ASRWidget.applyOps ops).status p = .processing →
      ASRWidget.reprocess p (ASRWidget.applyOps ops) = (true, ASRWidget.applyOps ops))
    ∧ (((ASRWidget.applyOps ops).status p = .done
          ∨ (ASRWidget.applyOps ops).status p = .errored) →
        (ASRWidget.reprocess p (ASRWidget.applyOps ops)).1 = false
        ∧ p ∉ (ASRWidget.applyOps ops).running
        ∧ ((ASRWidget.applyOps ops).running.length < ASRWidget.max_threads →
            (ASRWidget.applyOps ops).processing_queue = [] →
            p ∈ (ASRWidget.reprocess p (ASRWidget.applyOps ops)).2.running
            ∧ (ASRWidget.reprocess p (ASRWidget.applyOps ops)).2.status p
                = .processing)) := by
  obtain ⟨hlen, hmem, hnd⟩ := applyOps_inv ops
  constructor
  · intro h
    simp [ASRWidget.reprocess, h]
  · intro h
    have hne : (ASRWidget.applyOps ops).status p ≠ .processing := by
      cases h with
      | inl h => rw [h]; intro hc; cases hc
      | inr h => rw [h]; intro hc; cases hc
    have hnr : p ∉ (ASRWidget.applyOps ops).running :=
      fun hc => hne ((hmem p).mp hc)
    refine ⟨by simp [ASRWidget.reprocess, hne], hnr, ?_⟩
    intro hcap hqnil
    have hcap' : ¬ ASRWidget.max_threads ≤ (ASRWidget.applyOps ops).running.length :=
      not_le.mpr hcap
    simp only [ASRWidget.reprocess, hne, if_false, ASRWidget.submit, ASRWidget.drain, hqnil,
      List.nil_append, ASRWidget.drainAux, hcap', hnr]
    constructor
    · exact List.mem_append_right _ (List.mem_singleton.mpr rfl)
    · simp [ASRWidget.setStat]

/-- Witness for C8: after `submit "a"` the path is Running and a
re-submission is rejected unchanged; after its completion the path is
Done, re-submission is accepted and starts a fresh Running job. -/
theorem c8_busy_rejection_witness :
    ASRWidget.reprocess "a" (ASRWidget.applyOps [.submit "a"])
      = (true, ASRWidget.applyOps [.submit "a"])
    ∧ (ASRWidget.reprocess "a" (ASRWidget.applyOps [.submit "a", .complete "a" true])).1
      = false
    ∧ "a" ∈ (ASRWidget.reprocess "a"
        (ASRWidget.applyOps [.submit "a", .complete "a" true])).2.running
    ∧ (ASRWidget.reprocess "a"
        (ASRWidget.applyOps [.submit "a", .complete "a" true])).2.status "a"
      = .processing := by
  have h1 := (c8_busy_rejection [.submit "a"] "a").1 (by decide)
  have h2 := (c8_busy_rejection [.submit "a", .complete "a" true] "a").2
    (Or.inl (by decide))
  exact ⟨h1, h2.1, (h2.2.2 (by decide) (by decide)).1, (h2.2.2 (by decide) (by decide)).2⟩

/-- C9: constructing the recognizer from raw bytes performs no input
validation at all — the bytes are taken as-is and construction always
succeeds; the supported-format and file-existence assertions can only fire
for a string path, where they fire during construction (`_set_data` runs
inside `__init__`, before any backend call): an unsupported extension
fails first, a supported extension with a missing file fails next, and a
successful construction from a path implies both checks passed and the
instance holds exactly the file's bytes. -/
theorem c9_bytes_skip_validation (fs : String → Option (List Nat))
    (b : List Nat) (p : String) :
    BaseASR.init fs (.bytes b) = .ok ⟨b, BaseASR.crc32_hex b⟩
    ∧ (BaseASR.extOf p ∉ BaseASR.SUPPORTED_SOUND_FORMAT →
        BaseASR.init fs (.path p)
          = .error ("Unsupported sound format: " ++ BaseASR.extOf p))
    ∧ (BaseASR.extOf p ∈ BaseASR.SUPPORTED_SOUND_FORMAT → fs p = none →
        BaseASR.init fs (.path p) = .error ("File not found: " ++ p))
    ∧ (∀ i, BaseASR.init fs (.path p) = .ok i →
        BaseASR.extOf p ∈ BaseASR.SUPPORTED_SOUND_FORMAT ∧ fs p = some i.file_binary) := by
  refine ⟨rfl, ?_, ?_, ?_⟩
  · intro h
    simp [BaseASR.init, BaseASR.set_data, h, Except.map]
  · intro h1 h2
    simp [BaseASR.init, BaseASR.set_data, h1, h2, Except.map]
  · intro i h
    by_cases he : BaseASR.extOf p ∈ BaseASR.SUPPORTED_SOUND_FORMAT
    · cases hf : fs p with
      | none => simp [BaseASR.init, BaseASR.set_data, he, hf, Except.map] at h
      | some bb =>
        refine ⟨he, ?_⟩
        simp only [BaseASR.init, BaseASR.set_data, he, if_true, hf, Except.map] at h
        rw [← Except.ok.inj h]
    · simp [BaseASR.init, BaseASR.set_data, he, Except.map] at h

/-- Witness for C9 on a one-file file system (`"x.mp3"` holding byte `[7]`):
bytes `[9]` are accepted unchecked; `"x.txt"` fails the format assertion;
`"y.mp3"` fails the existence assertion; construction from `"x.mp3"`
stores exactly the file's bytes. -/
theorem c9_bytes_skip_validation_witness :
    BaseASR.init (fun q => if q = "x.mp3" then some [7] else none) (.bytes [9])
      = .ok ⟨[9], BaseASR.crc32_hex [9]⟩
    ∧ BaseASR.init (fun q => if q = "x.mp3" then some [7] else none) (.path "x.txt")
      = .error ("Unsupported sound format: " ++ BaseASR.extOf "x.txt")
    ∧ BaseASR.init (fun q => if q = "x.mp3" then some [7] else none) (.path "y.mp3")
      = .error ("File not found: " ++ "y.mp3")
    ∧ (fun q => if q = "x.mp3" then some [7] else none) "x.mp3"
      = some ((⟨[7], BaseASR.crc32_hex [7]⟩ : BaseASR.Instance).file_binary) := by
  refine ⟨(c9_bytes_skip_validation _ [9] "x.mp3").1, ?_, ?_, ?_⟩
  · exact (c9_bytes_skip_validation _ [9] "x.txt").2.1 (by decide)
  · exact (c9_bytes_skip_validation _ [9] "y.mp3").2.2.1 (by decide) (by decide)
  · exact ((c9_bytes_skip_validation
      (fun q => if q = "x.mp3" then some [7] else none) [9] "x.mp3").2.2.2
      ⟨[7], BaseASR.crc32_hex [7]⟩ (by rfl)).2

end ASRTool
